import Mathlib

/-!
Shallow embedding of the Monte Carlo combat-resolution engine of the
unluigi repository (The Ninth Age dice simulator): the dice-expression
parser (`src/engine/dice.ts`), the five-phase attack-sequence simulator
(`src/engine/simulator.ts`) and the statistics aggregator
(`src/engine/probability.ts`, in the variant that reports a variance
field).  Machine floats are modelled by exact rationals, the ambient
random source by an explicit list of naturals that each d6 draw consumes,
and a thrown `Error` by `Except.error`.
-/

namespace Unluigi

/-! ### Random source

`rollD6` is `Math.floor(Math.random() * 6) + 1`: every call yields a value
in `[1, 6]`.  We model the entropy behind `Math.random` as a list of
naturals; a draw consumes the head (`0` once the list is exhausted) and
maps it into the die range, so exactly the values `1..6` are producible.
-/

/-- The entropy source feeding `Math.random`, as a consumable list. -/
abbrev Rng := List Nat

/-- `rollD6` from `dice.ts`: a value in `[1, 6]` drawn from the source. -/
def rollD6 (r : Rng) : Nat × Rng :=
  (r.headD 0 % 6 + 1, r.tail)

/-- `rollD3` from `dice.ts`: `Math.ceil(rollD6() / 2)`. -/
def rollD3 (r : Rng) : Nat × Rng :=
  let d := rollD6 r
  ((d.1 + 1) / 2, d.2)

/-- `rollMultipleD6` from `dice.ts`: sum of `count` d6 rolls. -/
def rollMultipleD6 : Nat → Rng → Nat × Rng
  | 0, r => (0, r)
  | n + 1, r =>
    let d := rollD6 r
    let s := rollMultipleD6 n d.2
    (d.1 + s.1, s.2)

/-- The inline d3 summation loop of `parseDiceExpression` in `dice.ts`
(`for (...) result += rollD3()`). -/
def rollMultipleD3 : Nat → Rng → Nat × Rng
  | 0, r => (0, r)
  | n + 1, r =>
    let d := rollD3 r
    let s := rollMultipleD3 n d.2
    (d.1 + s.1, s.2)

/-! ### Dice-expression parsing -/

/-- The TypeScript union `string | number` taken by `parseDiceExpression`. -/
inductive NumStr where
  | num (n : Int)
  | str (s : String)
deriving DecidableEq, Repr

/-- The normalization in `parseDiceExpression`:
`expression.replace(/\s+/g, "").toLowerCase()`. -/
def normalize (s : String) : List Char :=
  (s.data.filter fun c => !c.isWhitespace).map Char.toLower

/-- The test `/^\d+$/.test(expr)` of `parseDiceExpression`. -/
def isPlainNat (cs : List Char) : Bool :=
  !cs.isEmpty && cs.all fun c => c.isDigit

/-- Decimal value of a digit string (the `Number.parseInt(s, 10)` calls of
`parseDiceExpression`, on strings already known to be all digits). -/
def digitsToNat (cs : List Char) : Nat :=
  cs.foldl (fun acc c => acc * 10 + (c.toNat - 48)) 0

/-- The regex match `^(\d*)d([36])([+-]\d+)?$` of `parseDiceExpression`,
returning `(count, sides, modifier)` with the TypeScript defaulting
(empty count group means 1, missing modifier group means 0).
`Option.none` models a failed match. -/
def parseShape (cs : List Char) : Option (Nat × Nat × Int) :=
  let countDigits := cs.takeWhile fun c => c.isDigit
  match cs.dropWhile fun c => c.isDigit with
  | 'd' :: sidesChar :: rest =>
    if sidesChar = '3' ∨ sidesChar = '6' then
      let sides : Nat := if sidesChar = '3' then 3 else 6
      let count : Nat := if countDigits.isEmpty then 1 else digitsToNat countDigits
      match rest with
      | [] => some (count, sides, 0)
      | signChar :: modDigits =>
        if (signChar = '+' ∨ signChar = '-') ∧ isPlainNat modDigits then
          some (count, sides,
            if signChar = '+' then (digitsToNat modDigits : Int)
            else -(digitsToNat modDigits : Int))
        else Option.none
    else Option.none
  | _ => Option.none

/-- `parseDiceExpression` from `dice.ts`: a number passes through; a string
is normalized, then either read as a plain integer literal, or matched
against the dice grammar and rolled, or rejected with an error.  The
sum-plus-modifier is not clamped to zero. -/
def parseDiceExpression (expression : NumStr) (r : Rng) : Except String (Int × Rng) :=
  match expression with
  | .num n => .ok (n, r)
  | .str s =>
    let expr := normalize s
    if isPlainNat expr then .ok ((digitsToNat expr : Int), r)
    else
      match parseShape expr with
      | Option.none => .error ("Invalid dice expression: " ++ s)
      | some (count, sides, modifier) =>
        let rolled := if sides = 6 then rollMultipleD6 count r else rollMultipleD3 count r
        .ok ((rolled.1 : Int) + modifier, rolled.2)

/-! ### Success evaluation and reroll policies -/

/-- The threshold union `number | "auto" | "none"` (`HitValue` in
`types.ts`). -/
inductive HitValue where
  | num (n : Int)
  | auto
  | none
deriving DecidableEq, Repr

/-- Failure-side reroll policy (`FailureRerollType` in `types.ts`):
`"none" | "1s" | "all"`. -/
inductive FailureRerollType where
  | none
  | ones
  | all
deriving DecidableEq, Repr

/-- Success-side reroll policy (`SuccessRerollType` in `types.ts`):
`"none" | "6s" | "all"`. -/
inductive SuccessRerollType where
  | none
  | sixes
  | all
deriving DecidableEq, Repr

/-- Legacy single-axis reroll policy (`RerollType` in `types.ts`):
`"none" | "1s" | "successes" | "fails"`. -/
inductive RerollType where
  | none
  | ones
  | successes
  | fails
deriving DecidableEq, Repr

/-- `isSuccess` from `dice.ts`. -/
def isSuccess (roll : Nat) (target : HitValue) : Bool :=
  match target with
  | .auto => true
  | .none => false
  | .num n => decide (n ≤ (roll : Int))

/-- Legacy `shouldReroll` from `dice.ts` (single policy axis). -/
def shouldReroll (roll : Nat) (target : HitValue) (rerollType : RerollType) : Bool :=
  if rerollType = .none then false
  else if target = .auto then decide (rerollType = .successes)
  else if target = .none then decide (rerollType = .fails)
  else
    match rerollType with
    | .none => false
    | .ones => decide (roll = 1)
    | .successes => isSuccess roll target
    | .fails => !isSuccess roll target

/-- Modelled from the spec: `shouldRerollSplit` is imported by
`simulator.ts` and re-exported by `engine/index.ts`, but its definition is
not among the available sources (only the legacy `shouldReroll` is).
Following the spec's Success Evaluator section: first compute success via
`isSuccess`; on a failure, reroll iff the failure-side policy is `all`, or
it is `1s` and the roll is exactly 1; on a success, reroll iff the
success-side policy is `all`, or it is `6s` and the roll is exactly 6. -/
def shouldRerollSplit (roll : Nat) (target : HitValue)
    (failurePolicy : FailureRerollType) (successPolicy : SuccessRerollType) : Bool :=
  if isSuccess roll target then
    match successPolicy with
    | .none => false
    | .sixes => decide (roll = 6)
    | .all => true
  else
    match failurePolicy with
    | .none => false
    | .ones => decide (roll = 1)
    | .all => true

/-! ### Simulation parameters -/

/-- `HitTracker` from `types.ts`. -/
structure HitTracker where
  isPoison : Bool
  isLethal : Bool
deriving DecidableEq, Repr

/-- `SimulationParameters` from `types.ts`: required `numAttacks`,
`toHit`, `toWound`; every other field optional. -/
structure SimulationParameters where
  numAttacks : NumStr
  toHit : HitValue
  toWound : HitValue
  rerollHitFailures : Option FailureRerollType
  rerollHitSuccesses : Option SuccessRerollType
  rerollWoundFailures : Option FailureRerollType
  rerollWoundSuccesses : Option SuccessRerollType
  armorSave : Option HitValue
  armorPiercing : Option Int
  rerollArmorSaveFailures : Option FailureRerollType
  rerollArmorSaveSuccesses : Option SuccessRerollType
  specialSave : Option HitValue
  rerollSpecialSaveFailures : Option FailureRerollType
  rerollSpecialSaveSuccesses : Option SuccessRerollType
  poison : Option Bool
  poisonOn5Plus : Option Bool
  lethalStrike : Option Bool
  fury : Option Bool
  redFury : Option Bool
  multipleWounds : Option NumStr
  targetMaxWounds : Option Int
  iterations : Option Nat
deriving DecidableEq, Repr

/-- `Required<SimulationParameters>`: the shape after `applyDefaults`. -/
structure RequiredParams where
  numAttacks : NumStr
  toHit : HitValue
  toWound : HitValue
  rerollHitFailures : FailureRerollType
  rerollHitSuccesses : SuccessRerollType
  rerollWoundFailures : FailureRerollType
  rerollWoundSuccesses : SuccessRerollType
  armorSave : HitValue
  armorPiercing : Int
  rerollArmorSaveFailures : FailureRerollType
  rerollArmorSaveSuccesses : SuccessRerollType
  specialSave : HitValue
  rerollSpecialSaveFailures : FailureRerollType
  rerollSpecialSaveSuccesses : SuccessRerollType
  poison : Bool
  poisonOn5Plus : Bool
  lethalStrike : Bool
  fury : Bool
  redFury : Bool
  multipleWounds : NumStr
  targetMaxWounds : Int
  iterations : Nat
deriving DecidableEq, Repr

/-- `applyDefaults` from `simulator.ts`: the spread
`{ ...DEFAULT_PARAMS, ...params }`, so an omitted optional field takes the
value recorded in `DEFAULT_PARAMS`. -/
def applyDefaults (p : SimulationParameters) : RequiredParams where
  numAttacks := p.numAttacks
  toHit := p.toHit
  toWound := p.toWound
  rerollHitFailures := p.rerollHitFailures.getD .none
  rerollHitSuccesses := p.rerollHitSuccesses.getD .none
  rerollWoundFailures := p.rerollWoundFailures.getD .none
  rerollWoundSuccesses := p.rerollWoundSuccesses.getD .none
  armorSave := p.armorSave.getD .none
  armorPiercing := p.armorPiercing.getD 0
  rerollArmorSaveFailures := p.rerollArmorSaveFailures.getD .none
  rerollArmorSaveSuccesses := p.rerollArmorSaveSuccesses.getD .none
  specialSave := p.specialSave.getD .none
  rerollSpecialSaveFailures := p.rerollSpecialSaveFailures.getD .none
  rerollSpecialSaveSuccesses := p.rerollSpecialSaveSuccesses.getD .none
  poison := p.poison.getD false
  poisonOn5Plus := p.poisonOn5Plus.getD false
  lethalStrike := p.lethalStrike.getD false
  fury := p.fury.getD false
  redFury := p.redFury.getD false
  multipleWounds := p.multipleWounds.getD (.num 1)
  targetMaxWounds := p.targetMaxWounds.getD 3
  iterations := p.iterations.getD 10000

/-! ### The five-phase attack sequence (`simulator.ts`) -/

/-- Phase 1, `rollToHit`: one d6 per attack, an at-most-single reroll
per the hit policies, success against `toHit`; a success records a
tracker whose poison flag looks at the original pre-reroll roll, and
fury adds one extra plain tracker on an original natural 6. -/
def rollToHit : Nat → RequiredParams → Rng → List HitTracker × Rng
  | 0, _, r => ([], r)
  | n + 1, params, r =>
    let firstRoll := rollD6 r
    let finalRoll :=
      if shouldRerollSplit firstRoll.1 params.toHit params.rerollHitFailures
          params.rerollHitSuccesses then
        rollD6 firstRoll.2
      else firstRoll
    let rest := rollToHit n params finalRoll.2
    if isSuccess finalRoll.1 params.toHit then
      let isPoisonHit :=
        (params.poisonOn5Plus && decide (5 ≤ firstRoll.1)) ||
          (params.poison && decide (firstRoll.1 = 6))
      if params.fury && decide (firstRoll.1 = 6) then
        (⟨isPoisonHit, false⟩ :: ⟨false, false⟩ :: rest.1, rest.2)
      else (⟨isPoisonHit, false⟩ :: rest.1, rest.2)
    else rest

/-- Phase 2, `rollToWound`: poisoned hits wound automatically; otherwise
one d6 with an at-most-single reroll against `toWound`; a success keeps
the tracker, marking it lethal when lethal-strike is set and the original
pre-reroll roll was a 6. -/
def rollToWound : List HitTracker → RequiredParams → Rng → List HitTracker × Rng
  | [], _, r => ([], r)
  | hit :: hits, params, r =>
    if hit.isPoison then
      let rest := rollToWound hits params r
      (hit :: rest.1, rest.2)
    else
      let firstRoll := rollD6 r
      let finalRoll :=
        if shouldRerollSplit firstRoll.1 params.toWound params.rerollWoundFailures
            params.rerollWoundSuccesses then
          rollD6 firstRoll.2
        else firstRoll
      let rest := rollToWound hits params finalRoll.2
      if isSuccess finalRoll.1 params.toWound then
        (⟨hit.isPoison, params.lethalStrike && decide (firstRoll.1 = 6)⟩ :: rest.1, rest.2)
      else rest

/-- Phase 3, `rollArmorSaves`: lethal wounds bypass the save; `none` means
no save, `auto` always saves; a numeric save is tested against
`min(7, armorSave + armorPiercing)`, with an effective value above 6
meaning no roll at all. -/
def rollArmorSaves : List HitTracker → RequiredParams → Rng → List HitTracker × Rng
  | [], _, r => ([], r)
  | wound :: wounds, params, r =>
    if wound.isLethal then
      let rest := rollArmorSaves wounds params r
      (wound :: rest.1, rest.2)
    else
      match params.armorSave with
      | .none =>
        let rest := rollArmorSaves wounds params r
        (wound :: rest.1, rest.2)
      | .auto => rollArmorSaves wounds params r
      | .num n =>
        let modifiedArmorSave := min 7 (n + params.armorPiercing)
        if 6 < modifiedArmorSave then
          let rest := rollArmorSaves wounds params r
          (wound :: rest.1, rest.2)
        else
          let firstRoll := rollD6 r
          let finalRoll :=
            if shouldRerollSplit firstRoll.1 (.num modifiedArmorSave)
                params.rerollArmorSaveFailures params.rerollArmorSaveSuccesses then
              rollD6 firstRoll.2
            else firstRoll
          let rest := rollArmorSaves wounds params finalRoll.2
          if !isSuccess finalRoll.1 (.num modifiedArmorSave) then
            (wound :: rest.1, rest.2)
          else rest

/-- Phase 4, `rollSpecialSaves`: like armor saves but against the
special-save threshold directly, with no armor-piercing modifier. -/
def rollSpecialSaves : List HitTracker → RequiredParams → Rng → List HitTracker × Rng
  | [], _, r => ([], r)
  | wound :: wounds, params, r =>
    if wound.isLethal then
      let rest := rollSpecialSaves wounds params r
      (wound :: rest.1, rest.2)
    else
      match params.specialSave with
      | .none =>
        let rest := rollSpecialSaves wounds params r
        (wound :: rest.1, rest.2)
      | .auto => rollSpecialSaves wounds params r
      | .num n =>
        let firstRoll := rollD6 r
        let finalRoll :=
          if shouldRerollSplit firstRoll.1 (.num n)
              params.rerollSpecialSaveFailures params.rerollSpecialSaveSuccesses then
            rollD6 firstRoll.2
          else firstRoll
        let rest := rollSpecialSaves wounds params finalRoll.2
        if !isSuccess finalRoll.1 (.num n) then (wound :: rest.1, rest.2)
        else rest

/-- Phase 5, `applyMultipleWounds`: for each surviving wound, evaluate the
multiple-wounds expression independently, cap that individual result at
`targetMaxWounds`, and sum.  The cap is per wound, not on the total. -/
def applyMultipleWounds :
    List HitTracker → RequiredParams → Rng → Except String (Int × Rng)
  | [], _, r => .ok (0, r)
  | _ :: wounds, params, r =>
    match parseDiceExpression params.multipleWounds r with
    | .error e => .error e
    | .ok (woundsPerHit, r1) =>
      match applyMultipleWounds wounds params r1 with
      | .error e => .error e
      | .ok (rest, r2) => .ok (min woundsPerHit params.targetMaxWounds + rest, r2)

/-- The `{ unsavedHits, totalWounds }` object returned by
`simulateAttackBatch`. -/
structure BatchResult where
  unsavedHits : Nat
  totalWounds : Int
deriving DecidableEq, Repr

/-- `simulateAttackBatch` from `simulator.ts`: the five phases in order,
returning the count of wounds that survive both saves (before multiple
wounds) together with the final damage total. -/
def simulateAttackBatch (numAttacks : Nat) (params : RequiredParams) (r : Rng) :
    Except String (BatchResult × Rng) :=
  let hitTrackers := rollToHit numAttacks params r
  let woundTrackers := rollToWound hitTrackers.1 params hitTrackers.2
  let unsavedAfterArmor := rollArmorSaves woundTrackers.1 params woundTrackers.2
  let unsavedAfterSpecial := rollSpecialSaves unsavedAfterArmor.1 params unsavedAfterArmor.2
  match applyMultipleWounds unsavedAfterSpecial.1 params unsavedAfterSpecial.2 with
  | .error e => .error e
  | .ok (totalWounds, r5) => .ok (⟨unsavedAfterSpecial.1.length, totalWounds⟩, r5)

/-- `simulateSingleSequence` from `simulator.ts`: resolve the attack count,
run the batch; with red fury, the survivors of the first batch feed a
second batch with red fury disabled, and the two damage subtotals add. -/
def simulateSingleSequence (params : RequiredParams) (r : Rng) :
    Except String (Int × Rng) :=
  match parseDiceExpression params.numAttacks r with
  | .error e => .error e
  | .ok (numAttacks, r1) =>
    if !params.redFury then
      match simulateAttackBatch numAttacks.toNat params r1 with
      | .error e => .error e
      | .ok (res, r2) => .ok (res.totalWounds, r2)
    else
      match simulateAttackBatch numAttacks.toNat params r1 with
      | .error e => .error e
      | .ok (first, r2) =>
        if first.unsavedHits = 0 then .ok (first.totalWounds, r2)
        else
          match simulateAttackBatch first.unsavedHits
              { params with redFury := false } r2 with
          | .error e => .error e
          | .ok (second, r3) => .ok (first.totalWounds + second.totalWounds, r3)

/-- The trial loop of `runSimulation`, already specialized to full
parameters. -/
def runSimulationLoop : Nat → RequiredParams → Rng → Except String (List Int × Rng)
  | 0, _, r => .ok ([], r)
  | n + 1, params, r =>
    match simulateSingleSequence params r with
    | .error e => .error e
    | .ok (wounds, r1) =>
      match runSimulationLoop n params r1 with
      | .error e => .error e
      | .ok (rest, r2) => .ok (wounds :: rest, r2)

/-- `runSimulation` from `simulator.ts`: apply the defaults, then collect
one damage total per iteration. -/
def runSimulation (params : SimulationParameters) (r : Rng) :
    Except String (List Int × Rng) :=
  let fullParams := applyDefaults params
  runSimulationLoop fullParams.iterations fullParams r

/-! ### Statistics aggregation (`probability.ts`, variance-reporting
variant) over exact rationals -/

/-- `ProbabilityPoint` from `types.ts`. -/
structure ProbabilityPoint where
  wounds : Int
  count : Nat
  probability : ℚ
  cumulative : ℚ
deriving DecidableEq, Repr

/-- `SimulationResults` from `types.ts` (the variance-reporting shape). -/
structure SimulationResults where
  distribution : List Int
  mean : ℚ
  median : ℚ
  mode : Int
  variance : ℚ
  percentile10 : ℚ
  percentile90 : ℚ
  min : Int
  max : Int
  probabilityDistribution : List ProbabilityPoint
  totalIterations : Nat
  executionTimeMs : ℚ
deriving DecidableEq, Repr

/-- `calculateMean` from `probability.ts`. -/
def calculateMean (values : List Int) : ℚ :=
  if values.isEmpty then 0
  else (values.map fun v => (v : ℚ)).sum / values.length

/-- `calculateVariance` from `probability.ts`: mean of squared deviations
from the (precomputed) mean, divided by the element count. -/
def calculateVariance (values : List Int) (mean : ℚ) : ℚ :=
  if values.isEmpty then 0
  else (values.map fun v => ((v : ℚ) - mean) ^ 2).sum / values.length

/-- The key-iteration order of the JS `Map` built by `calculateMode` and
`buildProbabilityDistribution`: distinct values in order of first
occurrence. -/
def firstDedupAux : List Int → List Int → List Int
  | [], _ => []
  | v :: vs, seen =>
    if v ∈ seen then firstDedupAux vs seen
    else v :: firstDedupAux vs (v :: seen)

/-- Distinct values of a list, keeping first occurrences in order. -/
def firstDedup (values : List Int) : List Int :=
  firstDedupAux values []

/-- `calculateMode` from `probability.ts`: highest occurrence count wins,
ties broken by first-encountered value; `0` for an empty input. -/
def calculateMode (values : List Int) : Int :=
  if values.isEmpty then 0
  else
    Prod.snd <|
      (firstDedup values).foldl
        (fun acc v =>
          let count := values.count v
          if acc.1 < count then (count, v) else acc)
        ((0 : Nat), (0 : Int))

/-- `calculatePercentile` from `probability.ts`: nearest-rank with linear
interpolation on a sorted array; `0` for an empty input. -/
def calculatePercentile (sortedValues : List Int) (percentile : ℚ) : ℚ :=
  if sortedValues.isEmpty then 0
  else
    let index : ℚ := percentile / 100 * ((sortedValues.length : ℚ) - 1)
    let lower : Int := ⌊index⌋
    let upper : Int := ⌈index⌉
    let weight : ℚ := index - lower
    if lower = upper then (sortedValues.getD lower.toNat 0 : ℚ)
    else
      (sortedValues.getD lower.toNat 0 : ℚ) * (1 - weight) +
        (sortedValues.getD upper.toNat 0 : ℚ) * weight

/-- The point-construction loop of `buildProbabilityDistribution`: walk the
ascending distinct values keeping a running cumulative count. -/
def buildPoints (values : List Int) (total : ℚ) :
    List Int → Nat → List ProbabilityPoint
  | [], _ => []
  | w :: ws, cumulativeCount =>
    let count := values.count w
    let newCumulative := cumulativeCount + count
    { wounds := w, count := count,
      probability := (count : ℚ) / total * 100,
      cumulative := (newCumulative : ℚ) / total * 100 } ::
      buildPoints values total ws newCumulative

/-- `buildProbabilityDistribution` from `probability.ts`: group-by-value
counts over the distinct observed values in ascending order, as
percentages of the trial count, with a running cumulative percentage. -/
def buildProbabilityDistribution (values : List Int) : List ProbabilityPoint :=
  if values.isEmpty then []
  else
    buildPoints values (values.length : ℚ)
      (List.insertionSort (fun a b => a ≤ b) values.dedup) 0

/-- `calculateStatistics` from `probability.ts` (the variant recording
variance and the 10th/90th percentiles). -/
def calculateStatistics (distribution : List Int) (totalIterations : Nat)
    (executionTimeMs : ℚ) : SimulationResults :=
  let sorted := List.insertionSort (fun a b => a ≤ b) distribution
  let mean := calculateMean distribution
  let median := calculatePercentile sorted 50
  let mode := calculateMode distribution
  let variance := calculateVariance distribution mean
  let percentile10 := calculatePercentile sorted 10
  let percentile90 := calculatePercentile sorted 90
  { distribution := distribution
    mean := mean
    median := median
    mode := mode
    variance := variance
    percentile10 := percentile10
    percentile90 := percentile90
    min := sorted.headD 0
    max := (sorted.getLast?).getD 0
    probabilityDistribution := buildProbabilityDistribution distribution
    totalIterations := totalIterations
    executionTimeMs := executionTimeMs }

/-- `runSimulationWithStats` from `simulator.ts`: run the simulation, then
aggregate.  Wall-clock timing lies outside the embedding, so the elapsed
time reported to the aggregator is fixed at `0`. -/
def runSimulationWithStats (params : SimulationParameters) (r : Rng) :
    Except String SimulationResults :=
  match runSimulation params r with
  | .error e => .error e
  | .ok (distribution, _) =>
    .ok (calculateStatistics distribution (applyDefaults params).iterations 0)

/-! ### Spec-side definitions (for refinement claims only) -/

/-- Spec-side arithmetic mean of a list of totals. -/
def specMean (values : List Int) : ℚ :=
  (values.map fun v => (v : ℚ)).sum / values.length

/-- Spec-side population variance: the mean of squared deviations from the
arithmetic mean, with divisor the element count (not count minus one). -/
def specPopulationVariance (values : List Int) : ℚ :=
  (values.map fun v => ((v : ℚ) - specMean values) ^ 2).sum / values.length

/-! ### Concrete parameter sets used in counterexamples and witnesses -/

/-- A minimal parameter set: one attack, automatic hit and wound, every
optional field omitted. -/
def minimalParams : SimulationParameters where
  numAttacks := .num 1
  toHit := .auto
  toWound := .auto
  rerollHitFailures := Option.none
  rerollHitSuccesses := Option.none
  rerollWoundFailures := Option.none
  rerollWoundSuccesses := Option.none
  armorSave := Option.none
  armorPiercing := Option.none
  rerollArmorSaveFailures := Option.none
  rerollArmorSaveSuccesses := Option.none
  specialSave := Option.none
  rerollSpecialSaveFailures := Option.none
  rerollSpecialSaveSuccesses := Option.none
  poison := Option.none
  poisonOn5Plus := Option.none
  lethalStrike := Option.none
  fury := Option.none
  redFury := Option.none
  multipleWounds := Option.none
  targetMaxWounds := Option.none
  iterations := Option.none

/-- One trial of one automatic hit and wound whose multiple-wounds field
is the grammatical dice expression "d6-20". -/
def negativeMwParams : SimulationParameters :=
  { minimalParams with multipleWounds := some (.str "d6-20"), iterations := some 1 }

/-! ### Claim theorems -/

/-- C8: `parseDiceExpression` rejects with an error, and substitutes no
silent default for, every input string whose whitespace-stripped,
case-normalized form is neither a plain non-negative integer literal nor
an instance of the grammar `[count]d(3|6)[(+|-)modifier]`. -/
theorem claim_C8_parse_rejects (s : String) (r : Rng)
    (h1 : isPlainNat (normalize s) = false)
    (h2 : parseShape (normalize s) = Option.none) :
    parseDiceExpression (.str s) r = .error ("Invalid dice expression: " ++ s) := by
  simp [parseDiceExpression, h1, h2]

/-- C8 witness: the die sizes 4 and 8 are rejected concretely. -/
theorem claim_C8_parse_rejects_witness :
    parseDiceExpression (.str "d4") [] = .error ("Invalid dice expression: " ++ "d4") ∧
    parseDiceExpression (.str "2d8") [] = .error ("Invalid dice expression: " ++ "2d8") :=
  ⟨claim_C8_parse_rejects "d4" [] (by decide) (by decide),
   claim_C8_parse_rejects "2d8" [] (by decide) (by decide)⟩

/-- C4: for every die roll 1-6 and numeric threshold 2-6, split-policy
reroll eligibility is decided as: a failed roll rerolls iff the failure
policy is `all`, or is `1s` with the roll exactly 1; a successful roll
rerolls iff the success policy is `all`, or is `6s` with the roll exactly
6. -/
theorem claim_C4_shouldRerollSplit (roll : Nat) (t : Int)
    (fp : FailureRerollType) (sp : SuccessRerollType)
    (_hr1 : 1 ≤ roll) (_hr6 : roll ≤ 6) (_ht2 : 2 ≤ t) (_ht6 : t ≤ 6) :
    shouldRerollSplit roll (.num t) fp sp =
      if (roll : Int) < t then
        decide (fp = .all) || (decide (fp = .ones) && decide (roll = 1))
      else
        decide (sp = .all) || (decide (sp = .sixes) && decide (roll = 6)) := by
  by_cases h : t ≤ (roll : Int)
  · cases sp <;> simp [shouldRerollSplit, isSuccess, h, not_lt.mpr h]
  · cases fp <;> simp [shouldRerollSplit, isSuccess, h, lt_of_not_le h]

/-- C4 witness: a natural 1 against a 4+ threshold under the `1s`
failure-side policy is eligible for a reroll. -/
theorem claim_C4_shouldRerollSplit_witness :
    shouldRerollSplit 1 (.num 4) .ones .none =
      if ((1 : Nat) : Int) < 4 then
        decide (FailureRerollType.ones = .all) ||
          (decide (FailureRerollType.ones = .ones) && decide ((1 : Nat) = 1))
      else
        decide (SuccessRerollType.none = .all) ||
          (decide (SuccessRerollType.none = .sixes) && decide ((1 : Nat) = 6)) :=
  claim_C4_shouldRerollSplit 1 4 .ones .none (by decide) (by decide) (by decide) (by decide)

/-- C2 counterexample: with `targetMaxWounds` omitted the applied default
is 3, and a per-wound multiple-wounds result of 6 contributes
`min 6 3 = 3`, not 6, so the defaulted cap is not inert. -/
theorem claim_C2_counterexample :
    (applyDefaults { minimalParams with multipleWounds := some (.num 6) }).targetMaxWounds = 3 ∧
    applyMultipleWounds [⟨false, false⟩]
        (applyDefaults { minimalParams with multipleWounds := some (.num 6) }) [] =
      .ok (3, []) ∧
    (3 : Int) ≠ 6 :=
  ⟨by decide, by rfl, by decide⟩

/-- C2 amended: when `targetMaxWounds` is omitted the applied default is
the finite cap 3, so a per-wound multiple-wounds result `w` contributes
`min w 3`, which equals `w` exactly when `w ≤ 3`; larger results are
reduced to 3. -/
theorem claim_C2_amended (p : SimulationParameters)
    (h : p.targetMaxWounds = Option.none) (w : Int) (r : Rng) :
    (applyDefaults p).targetMaxWounds = 3 ∧
    applyMultipleWounds [⟨false, false⟩]
        { applyDefaults p with multipleWounds := .num w } r = .ok (min w 3, r) ∧
    (min w 3 = w ↔ w ≤ 3) := by
  refine ⟨by simp [applyDefaults, h], ?_, min_eq_left_iff⟩
  simp [applyMultipleWounds, parseDiceExpression, applyDefaults, h]

/-- C2 witness: the amended statement at the minimal parameters and
`w = 6`. -/
theorem claim_C2_amended_witness :
    (applyDefaults minimalParams).targetMaxWounds = 3 ∧
    applyMultipleWounds [⟨false, false⟩]
        { applyDefaults minimalParams with multipleWounds := .num 6 } [] =
      .ok (min 6 3, []) ∧
    (min (6 : Int) 3 = 6 ↔ (6 : Int) ≤ 3) :=
  claim_C2_amended minimalParams rfl 6 []

/-- C1 counterexample: with the grammatical multiple-wounds expression
"d6-20" (whose evaluation `parseDiceExpression` does not clamp) a trial
total of -19 reaches the raw totals array returned by `runSimulation`,
so not every entry is non-negative. -/
theorem claim_C1_counterexample :
    runSimulation negativeMwParams [] = .ok ([-19], []) ∧ ¬(0 : Int) ≤ -19 :=
  ⟨by rfl, by decide⟩

/-! ### Non-negativity analysis (claim C1) -/

/-- The smallest value an evaluation of `parseDiceExpression` can yield
for a given expression: every die shows at least a 1, plus the modifier;
a number or a plain integer literal is itself.  Strings that fail to
parse, and hence never evaluate, are assigned 0. -/
def minValue (e : NumStr) : Int :=
  match e with
  | .num n => n
  | .str s =>
    if isPlainNat (normalize s) then (digitsToNat (normalize s) : Int)
    else
      match parseShape (normalize s) with
      | some (count, _, modifier) => (count : Int) + modifier
      | Option.none => 0

lemma one_le_rollD6 (r : Rng) : 1 ≤ (rollD6 r).1 :=
  Nat.le_add_left 1 _

lemma le_rollMultipleD6 : ∀ (n : Nat) (r : Rng), n ≤ (rollMultipleD6 n r).1
  | 0, _ => Nat.le_refl 0
  | n + 1, r => by
    have h1 := one_le_rollD6 r
    have h2 := le_rollMultipleD6 n (rollD6 r).2
    show n + 1 ≤ (rollD6 r).1 + (rollMultipleD6 n (rollD6 r).2).1
    omega

lemma one_le_rollD3 (r : Rng) : 1 ≤ (rollD3 r).1 := by
  have h := one_le_rollD6 r
  show 1 ≤ ((rollD6 r).1 + 1) / 2
  rw [Nat.one_le_div_iff (by norm_num)]
  omega

lemma le_rollMultipleD3 : ∀ (n : Nat) (r : Rng), n ≤ (rollMultipleD3 n r).1
  | 0, _ => Nat.le_refl 0
  | n + 1, r => by
    have h1 := one_le_rollD3 r
    have h2 := le_rollMultipleD3 n (rollD3 r).2
    show n + 1 ≤ (rollD3 r).1 + (rollMultipleD3 n (rollD3 r).2).1
    omega

/-- Whatever `parseDiceExpression` successfully evaluates to is at least
the expression's minimum value. -/
lemma minValue_le_parse (e : NumStr) (r : Rng) (v : Int) (r' : Rng)
    (h : parseDiceExpression e r = .ok (v, r')) : minValue e ≤ v := by
  cases e with
  | num n =>
    simp only [parseDiceExpression, Except.ok.injEq, Prod.mk.injEq] at h
    simp [minValue, h.1]
  | str s =>
    rw [parseDiceExpression] at h
    rw [minValue]
    split at h
    · rename_i hp
      rw [if_pos hp]
      simp only [Except.ok.injEq, Prod.mk.injEq] at h
      exact le_of_eq h.1
    · rename_i hp
      rw [if_neg hp]
      split at h
      · cases h
      · rename_i count sides modifier hq
        simp only [hq]
        simp only [Except.ok.injEq, Prod.mk.injEq] at h
        rw [← h.1]
        by_cases hs : sides = 6
        · rw [if_pos hs]
          have := le_rollMultipleD6 count r
          omega
        · rw [if_neg hs]
          have := le_rollMultipleD3 count r
          omega

/-- Phase 5 yields a non-negative total when the multiple-wounds
expression cannot evaluate below zero and the cap is non-negative. -/
lemma applyMultipleWounds_nonneg :
    ∀ (ts : List HitTracker) (p : RequiredParams) (r : Rng) (t : Int) (r' : Rng),
      0 ≤ minValue p.multipleWounds → 0 ≤ p.targetMaxWounds →
      applyMultipleWounds ts p r = .ok (t, r') → 0 ≤ t
  | [], p, r, t, r', hm, hc, h => by
    simp only [applyMultipleWounds, Except.ok.injEq, Prod.mk.injEq] at h
    omega
  | _ :: ts, p, r, t, r', hm, hc, h => by
    rw [applyMultipleWounds] at h
    split at h
    · cases h
    · rename_i w r1 hp
      split at h
      · cases h
      · rename_i tRest r2 hrest
        simp only [Except.ok.injEq, Prod.mk.injEq] at h
        have h1 := minValue_le_parse _ _ _ _ hp
        have h2 := applyMultipleWounds_nonneg ts p r1 tRest r2 hm hc hrest
        have h3 : 0 ≤ min w p.targetMaxWounds := le_min (le_trans hm h1) hc
        omega

/-- A batch's damage subtotal is non-negative under the same conditions. -/
lemma simulateAttackBatch_nonneg (n : Nat) (p : RequiredParams) (r : Rng)
    (res : BatchResult) (r' : Rng)
    (hm : 0 ≤ minValue p.multipleWounds) (hc : 0 ≤ p.targetMaxWounds)
    (h : simulateAttackBatch n p r = .ok (res, r')) : 0 ≤ res.totalWounds := by
  rw [simulateAttackBatch] at h
  split at h
  · cases h
  · rename_i totalWounds r5 heq
    simp only [Except.ok.injEq, Prod.mk.injEq] at h
    have := applyMultipleWounds_nonneg _ _ _ _ _ hm hc heq
    rw [← h.1]
    exact this

/-- A trial's total is non-negative under the same conditions; red fury
preserves them because the second batch shares the multiple-wounds
expression and cap. -/
lemma simulateSingleSequence_nonneg (p : RequiredParams) (r : Rng)
    (t : Int) (r' : Rng)
    (hm : 0 ≤ minValue p.multipleWounds) (hc : 0 ≤ p.targetMaxWounds)
    (h : simulateSingleSequence p r = .ok (t, r')) : 0 ≤ t := by
  rw [simulateSingleSequence] at h
  split at h
  · cases h
  · rename_i numAttacks r1 hp
    split at h
    · split at h
      · cases h
      · rename_i res r2 hb
        have := simulateAttackBatch_nonneg _ _ _ _ _ hm hc hb
        simp only [Except.ok.injEq, Prod.mk.injEq] at h
        omega
    · split at h
      · cases h
      · rename_i first r2 hb
        have hfirst := simulateAttackBatch_nonneg _ _ _ _ _ hm hc hb
        split at h
        · simp only [Except.ok.injEq, Prod.mk.injEq] at h
          omega
        · split at h
          · cases h
          · rename_i second r3 hb2
            have hsecond := simulateAttackBatch_nonneg first.unsavedHits
              { p with redFury := false } r2 second r3 hm hc hb2
            simp only [Except.ok.injEq, Prod.mk.injEq] at h
            omega

lemma runSimulationLoop_nonneg :
    ∀ (k : Nat) (p : RequiredParams) (r : Rng) (l : List Int) (r' : Rng),
      0 ≤ minValue p.multipleWounds → 0 ≤ p.targetMaxWounds →
      runSimulationLoop k p r = .ok (l, r') → ∀ x ∈ l, 0 ≤ x
  | 0, p, r, l, r', _, _, h => by
    simp only [runSimulationLoop, Except.ok.injEq, Prod.mk.injEq] at h
    rw [← h.1]
    intro x hx
    cases hx
  | k + 1, p, r, l, r', hm, hc, h => by
    rw [runSimulationLoop] at h
    split at h
    · cases h
    · rename_i w r1 hs
      split at h
      · cases h
      · rename_i rest r2 hrest
        simp only [Except.ok.injEq, Prod.mk.injEq] at h
        have h1 := simulateSingleSequence_nonneg _ _ _ _ hm hc hs
        have h2 := runSimulationLoop_nonneg k p r1 rest r2 hm hc hrest
        rw [← h.1]
        intro x hx
        cases hx with
        | head => exact h1
        | tail _ hx => exact h2 x hx

/-- C1 amended: every entry of the raw totals array is an integer, and is
non-negative provided the multiple-wounds expression cannot evaluate
below zero and the wounds cap is non-negative; `parseDiceExpression` does
not clamp, so a negative-modifier expression such as "d6-20" escapes this
and yields negative entries. -/
theorem claim_C1_amended (params : SimulationParameters) (r : Rng)
    (out : List Int × Rng)
    (hm : 0 ≤ minValue (applyDefaults params).multipleWounds)
    (hc : 0 ≤ (applyDefaults params).targetMaxWounds)
    (hrun : runSimulation params r = .ok out) :
    ∀ x ∈ out.1, 0 ≤ x := by
  rw [runSimulation] at hrun
  exact runSimulationLoop_nonneg _ _ _ _ _ hm hc (by rw [hrun])

/-- C1 amended witness: one defaulted trial (multiple wounds 1, cap 3) at
the minimal parameters produces the entry 1, which is non-negative. -/
theorem claim_C1_amended_witness :
    runSimulation { minimalParams with iterations := some 1 } [] = .ok ([1], []) ∧
    (0 : Int) ≤ 1 :=
  ⟨by rfl,
   claim_C1_amended { minimalParams with iterations := some 1 } [] ([1], [])
     (by decide) (by decide) (by rfl) 1 (by decide)⟩

/-! ### Red fury, poison timing, and armor-save claims -/

/-- C5: with red fury set, a trial's total is the first batch's damage
subtotal plus the damage subtotal of a second batch whose attack count is
the number of wounds surviving both save phases of the first batch
(counted before multiple wounds) and whose red-fury flag is disabled;
zero survivors skip the second batch and the trial total is the first
subtotal alone. -/
theorem claim_C5_redFury (p : RequiredParams) (r : Rng) (h : p.redFury = true) :
    simulateSingleSequence p r =
      match parseDiceExpression p.numAttacks r with
      | .error e => .error e
      | .ok (numAttacks, r1) =>
        match simulateAttackBatch numAttacks.toNat p r1 with
        | .error e => .error e
        | .ok (first, r2) =>
          if first.unsavedHits = 0 then .ok (first.totalWounds, r2)
          else
            match simulateAttackBatch first.unsavedHits
                { p with redFury := false } r2 with
            | .error e => .error e
            | .ok (second, r3) => .ok (first.totalWounds + second.totalWounds, r3) := by
  rw [simulateSingleSequence, h]
  simp only [Bool.not_true, Bool.false_eq_true, if_false]

/-- Red-fury parameters for the C5 witness. -/
def redFuryParams : RequiredParams :=
  applyDefaults { minimalParams with redFury := some true }

/-- C5 witness: the red-fury decomposition at a concrete parameter set. -/
theorem claim_C5_redFury_witness :
    simulateSingleSequence redFuryParams [] =
      match parseDiceExpression redFuryParams.numAttacks [] with
      | .error e => .error e
      | .ok (numAttacks, r1) =>
        match simulateAttackBatch numAttacks.toNat redFuryParams r1 with
        | .error e => .error e
        | .ok (first, r2) =>
          if first.unsavedHits = 0 then .ok (first.totalWounds, r2)
          else
            match simulateAttackBatch first.unsavedHits
                { redFuryParams with redFury := false } r2 with
            | .error e => .error e
            | .ok (second, r3) => .ok (first.totalWounds + second.totalWounds, r3) :=
  claim_C5_redFury redFuryParams [] (by decide)

/-- The original, pre-reroll d6 value of the first to-hit die. -/
def hitFirstRoll (r : Rng) : Nat := (rollD6 r).1

/-- The to-hit roll left after the at-most-one reroll the hit-phase
policies allow. -/
def hitFinalRoll (p : RequiredParams) (r : Rng) : Nat :=
  if shouldRerollSplit (rollD6 r).1 p.toHit p.rerollHitFailures p.rerollHitSuccesses then
    (rollD6 (rollD6 r).2).1
  else (rollD6 r).1

/-- C6: a successful hit's tracker is marked poisoned exactly when the
standard poison flag is set and the original pre-reroll die was exactly
6, or the 5-plus variant is set and that original value was at least 5 —
a function of the pre-reroll value only, independent of the final
(possibly rerolled) value that decided success. -/
theorem claim_C6_poison_prereroll (p : RequiredParams) (r : Rng) :
    ((rollToHit 1 p r).1.head?).map (fun t => t.isPoison) =
      (if isSuccess (hitFinalRoll p r) p.toHit then
        some ((p.poisonOn5Plus && decide (5 ≤ hitFirstRoll r)) ||
          (p.poison && decide (hitFirstRoll r = 6)))
      else Option.none) := by
  by_cases hR : shouldRerollSplit (rollD6 r).1 p.toHit p.rerollHitFailures p.rerollHitSuccesses
  · by_cases hS : isSuccess (rollD6 (rollD6 r).2).1 p.toHit
    · by_cases hF : (p.fury && decide ((rollD6 r).1 = 6)) = true <;>
        simp [rollToHit, hitFinalRoll, hitFirstRoll, hR, hS, hF]
    · simp [rollToHit, hitFinalRoll, hitFirstRoll, hR, hS]
  · by_cases hS : isSuccess (rollD6 r).1 p.toHit
    · by_cases hF : (p.fury && decide ((rollD6 r).1 = 6)) = true <;>
        simp [rollToHit, hitFinalRoll, hitFirstRoll, hR, hS, hF]
    · simp [rollToHit, hitFinalRoll, hitFirstRoll, hR, hS]

/-- The armor-save roll left after the at-most-one reroll the armor-save
policies allow, with the entropy source afterwards. -/
def armorSaveRoll (p : RequiredParams) (eff : Int) (r : Rng) : Nat × Rng :=
  if shouldRerollSplit (rollD6 r).1 (.num eff) p.rerollArmorSaveFailures
      p.rerollArmorSaveSuccesses then
    rollD6 (rollD6 r).2
  else rollD6 r

/-- C7: a non-lethal wound facing a numeric armor save is tested against
`min 7 (armorSave + armorPiercing)`; an effective value above 6 lets the
wound through with no die rolled (identically to threshold `none`), and
otherwise one at-most-once-rerolled roll negates the wound exactly when
it meets the effective threshold. -/
theorem claim_C7_armorSave (p : RequiredParams) (w : HitTracker) (r : Rng)
    (hL : w.isLethal = false) (v : Int) (hv : p.armorSave = .num v) :
    (6 < min 7 (v + p.armorPiercing) →
      rollArmorSaves [w] p r = ([w], r) ∧
      rollArmorSaves [w] { p with armorSave := .none } r = ([w], r)) ∧
    (min 7 (v + p.armorPiercing) ≤ 6 →
      rollArmorSaves [w] p r =
        ((if isSuccess (armorSaveRoll p (min 7 (v + p.armorPiercing)) r).1
            (.num (min 7 (v + p.armorPiercing))) = true then []
          else [w]),
         (armorSaveRoll p (min 7 (v + p.armorPiercing)) r).2)) := by
  constructor
  · intro hEff
    constructor
    · rw [rollArmorSaves]
      simp [hL, hv, hEff, rollArmorSaves]
    · rw [rollArmorSaves]
      simp [hL, rollArmorSaves]
  · intro hEff
    rw [rollArmorSaves]
    simp only [hL, Bool.false_eq_true, if_false, hv]
    rw [if_neg (not_lt.mpr hEff)]
    by_cases hR : shouldRerollSplit (rollD6 r).1 (.num (min 7 (v + p.armorPiercing)))
        p.rerollArmorSaveFailures p.rerollArmorSaveSuccesses
    · by_cases hS : isSuccess (rollD6 (rollD6 r).2).1
          (.num (min 7 (v + p.armorPiercing))) = true <;>
        simp [armorSaveRoll, rollArmorSaves, hR, hS]
    · by_cases hS : isSuccess (rollD6 r).1 (.num (min 7 (v + p.armorPiercing))) = true <;>
        simp [armorSaveRoll, rollArmorSaves, hR, hS]

/-- Armor-save parameters for the C7 witness: a 2+ save, no piercing. -/
def armorSaveParams : RequiredParams :=
  applyDefaults { minimalParams with armorSave := some (.num 2) }

/-- C7 witness: the armor-save characterization at a concrete non-lethal
wound against a 2+ save. -/
theorem claim_C7_armorSave_witness :
    (6 < min 7 ((2 : Int) + armorSaveParams.armorPiercing) →
      rollArmorSaves [⟨false, false⟩] armorSaveParams [] = ([⟨false, false⟩], []) ∧
      rollArmorSaves [⟨false, false⟩] { armorSaveParams with armorSave := .none } [] =
        ([⟨false, false⟩], [])) ∧
    (min 7 ((2 : Int) + armorSaveParams.armorPiercing) ≤ 6 →
      rollArmorSaves [⟨false, false⟩] armorSaveParams [] =
        ((if isSuccess
            (armorSaveRoll armorSaveParams
              (min 7 ((2 : Int) + armorSaveParams.armorPiercing)) []).1
            (.num (min 7 ((2 : Int) + armorSaveParams.armorPiercing))) = true then []
          else [⟨false, false⟩]),
         (armorSaveRoll armorSaveParams
           (min 7 ((2 : Int) + armorSaveParams.armorPiercing)) []).2)) :=
  claim_C7_armorSave armorSaveParams ⟨false, false⟩ [] (by decide) 2 (by decide)

/-! ### Tracker-flag invariant (claim C10) -/

/-- Every tracker the hit phase emits has its lethal flag unset (the flag
is only assigned during the wound phase). -/
lemma rollToHit_isLethal :
    ∀ (n : Nat) (p : RequiredParams) (r : Rng),
      ∀ t ∈ (rollToHit n p r).1, t.isLethal = false
  | 0, p, r => by
    intro t ht
    simp [rollToHit] at ht
  | n + 1, p, r => by
    intro t ht
    simp only [rollToHit] at ht
    repeat' split at ht
    all_goals
      first
        | exact rollToHit_isLethal n p _ t ht
        | (simp only [List.mem_cons] at ht
           rcases ht with h1 | h1 | h1
           · rw [h1]
           · rw [h1]
           · exact rollToHit_isLethal n p _ t h1)
        | (simp only [List.mem_cons] at ht
           rcases ht with h1 | h1
           · rw [h1]
           · exact rollToHit_isLethal n p _ t h1)

/-- If no incoming hit tracker carries the lethal flag, every tracker the
wound phase emits has its poison flag or its lethal flag unset: poisoned
hits skip the wound roll and keep their (unset) lethal flag, while rolled
wounds are only created from non-poisoned hits. -/
lemma rollToWound_flags :
    ∀ (ts : List HitTracker) (p : RequiredParams) (r : Rng),
      (∀ t ∈ ts, t.isLethal = false) →
      ∀ t ∈ (rollToWound ts p r).1, t.isPoison = false ∨ t.isLethal = false
  | [], p, r, _ => by
    intro t ht
    simp [rollToWound] at ht
  | hit :: hits, p, r, hts => by
    intro t ht
    have htail : ∀ u ∈ hits, u.isLethal = false :=
      fun u hu => hts u (List.mem_cons_of_mem _ hu)
    simp only [rollToWound] at ht
    split at ht
    · simp only [List.mem_cons] at ht
      rcases ht with h1 | h1
      · right
        rw [h1]
        exact hts hit (List.mem_cons_self _ _)
      · exact rollToWound_flags hits p _ htail t h1
    · rename_i hnp
      split at ht <;> split at ht
      all_goals
        first
          | exact rollToWound_flags hits p _ htail t ht
          | (simp only [List.mem_cons] at ht
             rcases ht with h1 | h1
             · left
               rw [h1]
               simpa using hnp
             · exact rollToWound_flags hits p _ htail t h1)

/-- Armor saves only filter the wound list: every survivor was already
present. -/
lemma rollArmorSaves_subset :
    ∀ (ts : List HitTracker) (p : RequiredParams) (r : Rng),
      ∀ t ∈ (rollArmorSaves ts p r).1, t ∈ ts
  | [], p, r => by
    intro t ht
    simp [rollArmorSaves] at ht
  | hit :: hits, p, r => by
    intro t ht
    simp only [rollArmorSaves] at ht
    repeat' split at ht
    all_goals
      first
        | exact List.mem_cons_of_mem _ (rollArmorSaves_subset hits p _ t ht)
        | (simp only [List.mem_cons] at ht
           rcases ht with h1 | h1
           · exact h1 ▸ List.mem_cons_self _ _
           · exact List.mem_cons_of_mem _ (rollArmorSaves_subset hits p _ t h1))

/-- Special saves only filter the wound list as well. -/
lemma rollSpecialSaves_subset :
    ∀ (ts : List HitTracker) (p : RequiredParams) (r : Rng),
      ∀ t ∈ (rollSpecialSaves ts p r).1, t ∈ ts
  | [], p, r => by
    intro t ht
    simp [rollSpecialSaves] at ht
  | hit :: hits, p, r => by
    intro t ht
    simp only [rollSpecialSaves] at ht
    repeat' split at ht
    all_goals
      first
        | exact List.mem_cons_of_mem _ (rollSpecialSaves_subset hits p _ t ht)
        | (simp only [List.mem_cons] at ht
           rcases ht with h1 | h1
           · exact h1 ▸ List.mem_cons_self _ _
           · exact List.mem_cons_of_mem _ (rollSpecialSaves_subset hits p _ t h1))

/-- C10: in every phase of a trial no tracker ever carries both flags:
hit-phase trackers are never lethal, wound-phase trackers are poisoned
only along the roll-skipping path that never sets the lethal flag, and
the save phases only filter. -/
theorem claim_C10_tracker_invariant (p : RequiredParams) (n : Nat) (r : Rng) :
    let s1 := rollToHit n p r
    let s2 := rollToWound s1.1 p s1.2
    let s3 := rollArmorSaves s2.1 p s2.2
    let s4 := rollSpecialSaves s3.1 p s3.2
    ∀ t, (t ∈ s1.1 ∨ t ∈ s2.1 ∨ t ∈ s3.1 ∨ t ∈ s4.1) →
      ¬(t.isPoison = true ∧ t.isLethal = true) := by
  intro s1 s2 s3 s4 t ht hboth
  have hHit := rollToHit_isLethal n p r
  have hWound := rollToWound_flags (rollToHit n p r).1 p (rollToHit n p r).2 hHit
  have hw : ∀ u ∈ s2.1, u.isPoison = false ∨ u.isLethal = false := hWound
  rcases ht with h1 | h1 | h1 | h1
  · rw [hHit t h1] at hboth
    exact Bool.false_ne_true hboth.2
  · rcases hw t h1 with h2 | h2 <;> rw [h2] at hboth
    · exact Bool.false_ne_true hboth.1
    · exact Bool.false_ne_true hboth.2
  · rcases hw t (rollArmorSaves_subset _ p _ t h1) with h2 | h2 <;> rw [h2] at hboth
    · exact Bool.false_ne_true hboth.1
    · exact Bool.false_ne_true hboth.2
  · have h3 := rollArmorSaves_subset _ p _ t (rollSpecialSaves_subset _ p _ t h1)
    rcases hw t h3 with h2 | h2 <;> rw [h2] at hboth
    · exact Bool.false_ne_true hboth.1
    · exact Bool.false_ne_true hboth.2

/-- C10 witness: the invariant at the minimal defaulted parameters, one
attack, an exhausted entropy source, and the tracker that pipeline
produces. -/
theorem claim_C10_tracker_invariant_witness :
    ¬((⟨false, false⟩ : HitTracker).isPoison = true ∧
      (⟨false, false⟩ : HitTracker).isLethal = true) :=
  claim_C10_tracker_invariant (applyDefaults minimalParams) 1 []
    ⟨false, false⟩ (Or.inl (by decide))

/-! ### Statistics claims (C3 and C9) -/

/-- The variance field computed by `calculateStatistics` is the population
variance of a non-empty distribution. -/
lemma calculateStatistics_variance (d : List Int) (n : Nat) (t : ℚ)
    (h : d ≠ []) :
    (calculateStatistics d n t).variance = specPopulationVariance d := by
  have he : d.isEmpty = false := List.isEmpty_eq_false.mpr h
  have hm : calculateMean d = specMean d := by
    rw [calculateMean, specMean]
    simp [he]
  show calculateVariance d (calculateMean d) = specPopulationVariance d
  rw [hm, calculateVariance, specPopulationVariance]
  simp [he]

/-- C3: the statistics result carries a variance equal to the population
variance — mean of squared deviations from the arithmetic mean, divisor
the trial count and not the trial count minus one — both as computed by
the aggregator directly and as surfaced through `runSimulationWithStats`. -/
theorem claim_C3_variance (d : List Int) (n : Nat) (t : ℚ) (h : d ≠ []) :
    (calculateStatistics d n t).variance = specPopulationVariance d ∧
    ∀ (params : SimulationParameters) (r : Rng) (res : SimulationResults),
      runSimulationWithStats params r = .ok res → res.distribution ≠ [] →
      res.variance = specPopulationVariance res.distribution := by
  refine ⟨calculateStatistics_variance d n t h, ?_⟩
  intro params r res hrun hne
  rw [runSimulationWithStats] at hrun
  split at hrun
  · cases hrun
  · simp only [Except.ok.injEq] at hrun
    rw [← hrun] at hne ⊢
    exact calculateStatistics_variance _ _ _ hne

/-- C3 witness: the population variance of the two-trial distribution
`[1, 2]` is 1/4. -/
theorem claim_C3_variance_witness :
    (calculateStatistics [1, 2] 2 0).variance = specPopulationVariance [1, 2] :=
  (claim_C3_variance [1, 2] 2 0 (by decide)).1

/-! ### Distribution invariants (claim C9) -/

lemma buildPoints_map_wounds (values : List Int) (total : ℚ) :
    ∀ (ws : List Int) (c : Nat),
      (buildPoints values total ws c).map (fun pt => pt.wounds) = ws
  | [], _ => rfl
  | w :: ws, c => by
    simp only [buildPoints, List.map_cons, List.cons.injEq]
    exact ⟨trivial, buildPoints_map_wounds values total ws _⟩

lemma buildPoints_map_probability (values : List Int) (total : ℚ) :
    ∀ (ws : List Int) (c : Nat),
      (buildPoints values total ws c).map (fun pt => pt.probability) =
        ws.map (fun w => (values.count w : ℚ) / total * 100)
  | [], _ => rfl
  | w :: ws, c => by
    simp only [buildPoints, List.map_cons, List.cons.injEq]
    exact ⟨trivial, buildPoints_map_probability values total ws _⟩

lemma sum_map_count_div (values : List Int) (total : ℚ) :
    ∀ ws : List Int,
      (ws.map (fun w => (values.count w : ℚ) / total * 100)).sum =
        (((ws.map fun w => values.count w).sum : ℕ) : ℚ) / total * 100
  | [] => by simp
  | w :: ws => by
    simp only [List.map_cons, List.sum_cons, sum_map_count_div values total ws]
    push_cast
    ring

lemma buildPoints_getLast?_cumulative (values : List Int) (total : ℚ) :
    ∀ (ws : List Int) (c : Nat) (pt : ProbabilityPoint),
      (buildPoints values total ws c).getLast? = some pt →
      pt.cumulative =
        (((c + (ws.map fun w => values.count w).sum : ℕ) : ℚ)) / total * 100
  | [], c, pt, h => by simp [buildPoints] at h
  | [w], c, pt, h => by
    simp only [buildPoints] at h
    simp only [List.getLast?_singleton, Option.some.injEq] at h
    rw [← h]
    simp
  | w :: w' :: ws, c, pt, h => by
    rw [buildPoints, buildPoints, List.getLast?_cons_cons] at h
    have hrec :=
      buildPoints_getLast?_cumulative values total (w' :: ws) (c + values.count w) pt h
    rw [hrec]
    simp only [List.map_cons, List.sum_cons]
    push_cast
    ring

lemma mem_of_getLast?_eq : ∀ (l : List Int) (b : Int), l.getLast? = some b → b ∈ l
  | [], b, h => by cases h
  | [a], b, h => by
    simp only [List.getLast?_singleton, Option.some.injEq] at h
    simp [h]
  | a :: c :: l, b, h => by
    rw [List.getLast?_cons_cons] at h
    exact List.mem_cons_of_mem _ (mem_of_getLast?_eq (c :: l) b h)

lemma sorted_le_getLast? :
    ∀ (l : List Int), List.Sorted (fun a b : Int => a ≤ b) l →
      ∀ b, l.getLast? = some b → ∀ x ∈ l, x ≤ b
  | [], _, b, hb => by cases hb
  | [a], _, b, hb => by
    intro x hx
    simp only [List.getLast?_singleton, Option.some.injEq] at hb
    simp only [List.mem_singleton] at hx
    rw [hx, ← hb]
  | a :: c :: l, hs, b, hb => by
    intro x hx
    rw [List.getLast?_cons_cons] at hb
    rw [List.sorted_cons] at hs
    rcases List.mem_cons.mp hx with h1 | h1
    · rw [h1]
      exact hs.1 b (mem_of_getLast?_eq (c :: l) b hb)
    · exact sorted_le_getLast? (c :: l) hs.2 b hb x h1

/-- C9: for a non-empty totals list the derived distribution is strictly
ascending in damage value with one entry per distinct observed value, its
probabilities sum to exactly 100 (exact rationals model the
floating-point tolerance), and the entry for the maximum observed damage
— the last one — has cumulative percentage 100. -/
theorem claim_C9_distribution (values : List Int) (h : values ≠ []) :
    List.Chain' (fun a b => a.wounds < b.wounds)
      (buildProbabilityDistribution values) ∧
    (∀ x : Int,
      (∃ pt ∈ buildProbabilityDistribution values, pt.wounds = x) ↔ x ∈ values) ∧
    ((buildProbabilityDistribution values).map fun pt => pt.probability).sum = 100 ∧
    ∀ pt, (buildProbabilityDistribution values).getLast? = some pt →
      pt.cumulative = 100 ∧
      ∀ q ∈ buildProbabilityDistribution values, q.wounds ≤ pt.wounds := by
  have he : values.isEmpty = false := List.isEmpty_eq_false.mpr h
  have hlen : values.length ≠ 0 := by
    simpa [List.length_eq_zero] using h
  have hT : ((values.length : ℚ)) ≠ 0 := by
    exact_mod_cast hlen
  have hunfold : buildProbabilityDistribution values =
      buildPoints values (values.length : ℚ)
        (List.insertionSort (fun a b => a ≤ b) values.dedup) 0 := by
    rw [buildProbabilityDistribution, if_neg (by simp [he])]
  have hperm : (List.insertionSort (fun a b => a ≤ b) values.dedup).Perm values.dedup :=
    List.perm_insertionSort _ _
  have hsorted : List.Sorted (fun a b : Int => a ≤ b)
      (List.insertionSort (fun a b => a ≤ b) values.dedup) :=
    List.sorted_insertionSort _ _
  have hnodup : (List.insertionSort (fun a b => a ≤ b) values.dedup).Nodup :=
    hperm.nodup_iff.mpr (List.nodup_dedup values)
  have hmapw : (buildPoints values (values.length : ℚ)
        (List.insertionSort (fun a b => a ≤ b) values.dedup) 0).map
          (fun pt => pt.wounds) =
      List.insertionSort (fun a b => a ≤ b) values.dedup :=
    buildPoints_map_wounds values (values.length : ℚ) _ 0
  have hsum : ((List.insertionSort (fun a b => a ≤ b) values.dedup).map
      fun w => values.count w).sum = values.length := by
    rw [(hperm.map fun w => values.count w).sum_eq]
    exact List.sum_map_count_dedup_eq_length values
  refine ⟨?_, ?_, ?_, ?_⟩
  · rw [hunfold]
    have hlt : List.Pairwise (fun a b : Int => a < b)
        (List.insertionSort (fun a b => a ≤ b) values.dedup) :=
      (hsorted.and hnodup).imp fun hab => lt_of_le_of_ne hab.1 hab.2
    have hchain : List.Chain' (fun a b : Int => a < b)
        ((buildPoints values (values.length : ℚ)
          (List.insertionSort (fun a b => a ≤ b) values.dedup) 0).map
            fun pt => pt.wounds) := by
      rw [hmapw]
      exact hlt.chain'
    exact (List.chain'_map _).mp hchain
  · intro x
    rw [hunfold]
    constructor
    · rintro ⟨pt, hpt, hx⟩
      have : x ∈ (buildPoints values (values.length : ℚ)
          (List.insertionSort (fun a b => a ≤ b) values.dedup) 0).map
            fun pt => pt.wounds :=
        List.mem_map.mpr ⟨pt, hpt, hx⟩
      rw [hmapw] at this
      exact List.mem_dedup.mp (hperm.mem_iff.mp this)
    · intro hx
      have : x ∈ List.insertionSort (fun a b => a ≤ b) values.dedup :=
        hperm.mem_iff.mpr (List.mem_dedup.mpr hx)
      rw [← hmapw] at this
      exact List.mem_map.mp this
  · rw [hunfold, buildPoints_map_probability, sum_map_count_div, hsum,
      div_self hT, one_mul]
  · intro pt hlast
    rw [hunfold] at hlast
    constructor
    · have := buildPoints_getLast?_cumulative values (values.length : ℚ) _ 0 pt hlast
      rw [this, Nat.zero_add, hsum, div_self hT, one_mul]
    · intro q hq
      rw [hunfold] at hq
      have hql : q.wounds ∈ List.insertionSort (fun a b => a ≤ b) values.dedup := by
        rw [← hmapw]
        exact List.mem_map.mpr ⟨q, hq, rfl⟩
      have hlw : (List.insertionSort (fun a b => a ≤ b) values.dedup).getLast? =
          some pt.wounds := by
        rw [← hmapw, List.getLast?_map, hlast]
        rfl
      exact sorted_le_getLast? _ hsorted pt.wounds hlw q.wounds hql

/-- C9 witness: the invariants at the concrete totals list `[2, 1, 1, 3]`. -/
theorem claim_C9_distribution_witness :
    List.Chain' (fun a b => a.wounds < b.wounds)
      (buildProbabilityDistribution [2, 1, 1, 3]) ∧
    (∀ x : Int,
      (∃ pt ∈ buildProbabilityDistribution [2, 1, 1, 3], pt.wounds = x) ↔
        x ∈ [(2 : Int), 1, 1, 3]) ∧
    ((buildProbabilityDistribution [2, 1, 1, 3]).map fun pt => pt.probability).sum = 100 ∧
    ∀ pt, (buildProbabilityDistribution [2, 1, 1, 3]).getLast? = some pt →
      pt.cumulative = 100 ∧
      ∀ q ∈ buildProbabilityDistribution [2, 1, 1, 3], q.wounds ≤ pt.wounds :=
  claim_C9_distribution [2, 1, 1, 3] (by decide)

end Unluigi
